import Mathlib

/-!
Verification development for the mp3cator repository (an ogg→mp3 batch
converter). The Python sources under `src/` are shallowly embedded here:

* paths are plain strings over POSIX separators (`os.sep = '/'`);
* the filesystem is modelled as the list of full paths of the files that an
  `os.walk` of the scan root enumerates, in traversal order; `os.path.exists`
  is membership in that list;
* `os.remove` outcomes are an oracle `String → Bool` (`true` = deletion
  succeeded, `false` = the call raised `OSError`);
* the external encoder/prober calls made by `OggToMp3Converter.convert` are
  oracles recording, per call site, either a normal result or the Python
  exception the call raised.

Python string/`os.path` primitives used by the sources are reimplemented
character-by-character on `List Char` (ASCII inputs; Python's `str.lower`,
`str.isdigit`, `re`'s `\d` and `[^a-zA-Z0-9]` agree with the `Char` ASCII
predicates on such inputs).
-/

namespace Mp3cator

/-! ## Python string / os.path primitives -/

/-- Splits a list at the LAST occurrence of `sep`: returns `some (l, r)` with
the input equal to `l ++ sep :: r` and `sep ∉ r`; `none` when `sep` does not
occur. Backbone of `os.path.basename` / `os.path.splitext` (both locate the
last separator / extension dot by a right-to-left scan). -/
def splitLastAux (sep : Char) : List Char → Option (List Char × List Char)
  | [] => none
  | c :: rest =>
    match splitLastAux sep rest with
    | some (l, r) => some (c :: l, r)
    | none => if c = sep then some ([], rest) else none

/-- Splits a POSIX path into (directory part including the trailing slash,
basename). With no slash the directory part is empty, as in `os.path`. -/
def splitPath (l : List Char) : List Char × List Char :=
  match splitLastAux '/' l with
  | none => ([], l)
  | some (d, b) => (d ++ ['/'], b)

/-- Characters of `os.path.basename(p)`. -/
def basenameB (l : List Char) : List Char := (splitPath l).2

/-- Condition CPython's `splitext` uses on the run before the extension dot:
at least one character that is not the extension separator. -/
def nonDot (c : Char) : Bool := !(c == '.')

/-- CPython `os.path.splitext` on a basename (no separators):
split at the last dot, unless every character before that dot is itself a
dot (the "leading dots" rule: `splitext(".ogg") == (".ogg", "")`). -/
def splitextB (b : List Char) : List Char × List Char :=
  match splitLastAux '.' b with
  | none => (b, [])
  | some (stem, ext) => if stem.any nonDot then (stem, '.' :: ext) else (b, [])

/-- CPython `os.path.splitext` on a full path. CPython computes
`sepIndex = p.rfind('/')`, `dotIndex = p.rfind('.')` and only splits when the
dot lies after the last slash, scanning leading dots from `sepIndex + 1`;
that is exactly: split off the basename, apply the basename `splitext`,
re-attach the directory part. -/
def splitextFull (l : List Char) : List Char × List Char :=
  ((splitPath l).1 ++ (splitextB (splitPath l).2).1, (splitextB (splitPath l).2).2)

/-- `os.path.splitext(os.path.basename(f))[0]` — the stem used as skip key by
`FileFinder.identify_files_for_conversion` and `PostCheck.perform_post_check`. -/
def stemOfBase (p : String) : String := ⟨(splitextB (basenameB p.data)).1⟩

/-- Python truthiness of an optional string (`if output_dir:`): `None` and the
empty string are falsy. -/
def optTruthy : Option String → Bool
  | none => false
  | some s => !(s == "")

/-- Splits on every occurrence of `sep` (Python `str.split(sep)` with a
one-character separator: empty fields are kept). -/
def splitCharAux (sep : Char) (cur : List Char) : List Char → List (List Char)
  | [] => [cur.reverse]
  | c :: rest =>
    if c = sep then cur.reverse :: splitCharAux sep [] rest
    else splitCharAux sep (c :: cur) rest

/-- Python `s.split(sep)` for a one-character separator, on strings. -/
def splitChar (sep : Char) (s : String) : List String :=
  (splitCharAux sep [] s.data).map (fun l => ⟨l⟩)

/-- One step of `posixpath.join`: absolute components restart the path,
otherwise a single `'/'` is inserted unless one is already present. -/
def pyJoinOne (acc b : String) : String :=
  if b.data.head? = some '/' then b
  else if acc == "" || acc.data.getLast? = some '/' then acc ++ b
  else acc ++ "/" ++ b

/-- `os.path.join(a, *rest)` for POSIX paths. -/
def pyJoin (a : String) (rest : List String) : String := rest.foldl pyJoinOne a

/-- Length of the common prefix of two segment lists
(`os.path.commonprefix` applied to lists, as `posixpath.relpath` does). -/
def commonLen : List String → List String → Nat
  | a :: as, b :: bs => if a = b then commonLen as bs + 1 else 0
  | _, _ => 0

/-- Joins the nonempty, slash-free segments `posixpath.relpath` produces;
`posixpath.join` degenerates to interleaving single slashes on such input. -/
def joinRel : List String → String
  | [] => "."
  | [x] => x
  | x :: rest => x ++ "/" ++ joinRel rest

/-- `posixpath.relpath(p, start)` for absolute, already-normalised inputs
(which is what the callers pass: `os.walk` results under the scan root and an
`os.path.abspath`-ed root/output directory): drop empty segments, remove the
common prefix, pad with `".."` for the remainder of `start`. -/
def relpath (p start : String) : String :=
  let pl := (splitChar '/' p).filter (fun s => !(s == ""))
  let sl := (splitChar '/' start).filter (fun s => !(s == ""))
  let i := commonLen pl sl
  let rel := List.replicate (sl.length - i) ".." ++ pl.drop i
  if rel.isEmpty then "." else joinRel rel

/-! ## src/core/utils.py -/

/-- Replace every maximal run of non-`[a-zA-Z0-9]` characters by one space:
`re.sub(r'[^a-zA-Z0-9]+', ' ', text)`. The flag records whether the scan is
inside such a run (a run emits its space at its first character). -/
def subNonAlnumAux (inRun : Bool) : List Char → List Char
  | [] => []
  | c :: rest =>
    if c.isAlphanum then c :: subNonAlnumAux false rest
    else if inRun then subNonAlnumAux true rest
    else ' ' :: subNonAlnumAux true rest

/-- Python `str.strip()` on the output of the substitution above (after the
substitution the only whitespace left is the plain space). -/
def stripSpaces (l : List Char) : List Char :=
  ((l.dropWhile (fun c => c == ' ')).reverse.dropWhile (fun c => c == ' ')).reverse

/-- Python `str.capitalize()` on ASCII: first character uppercased, the rest
lowercased. -/
def pyCapitalize (w : List Char) : List Char :=
  match w with
  | [] => []
  | c :: rest => c.toUpper :: rest.map Char.toLower

/-- `to_camel_case` from src/core/utils.py: substitute non-alphanumeric runs
by spaces, strip, split on spaces, lowercase the first word and capitalize
and concatenate the rest. -/
def to_camel_case (text : String) : String :=
  let s := stripSpaces (subNonAlnumAux false text.data)
  if s.isEmpty then ""
  else
    match splitCharAux ' ' [] s with
    | [] => ""
    | w :: ws => ⟨w.map Char.toLower ++ (ws.map pyCapitalize).flatten⟩

/-- `_get_custom_output_path` from src/core/utils.py: reproduce the relative
path from the root under `output_dir`, keeping directory components verbatim
and swapping the extension of the final component to `.mp3`. -/
def _get_custom_output_path (ogg_path root_path output_dir : String) : String :=
  let relative_path := relpath ogg_path root_path
  let path_components := splitChar '/' relative_path
  let original_basename : String := ⟨(splitextB (path_components.getLastD "").data).1⟩
  let new_filename : String := original_basename ++ ".mp3"
  pyJoin output_dir (path_components.dropLast ++ [new_filename])

/-- `_get_restructured_path` from src/core/utils.py: camel-case every
directory component and the filename stem, swap the extension to `.mp3` and
re-root under `<root>/RS`. -/
def _get_restructured_path (ogg_path root_path : String) : String :=
  let relative_path := relpath ogg_path root_path
  let path_components := splitChar '/' relative_path
  let camel_cased_dirs := path_components.dropLast.map to_camel_case
  let original_basename : String := ⟨(splitextB (path_components.getLastD "").data).1⟩
  let new_filename : String := to_camel_case original_basename ++ ".mp3"
  let new_base := pyJoin root_path ["RS"]
  pyJoin new_base (camel_cased_dirs ++ [new_filename])

/-- `get_mp3_path` from src/core/utils.py. Priority 1: custom output
directory (truthy `output_dir`); priority 2: in-place
(`os.path.splitext(ogg_path)[0] + '.mp3'`); priority 3: restructuring. -/
def get_mp3_path (ogg_path root_path : String) (restructure : Bool)
    (output_dir : Option String) : String :=
  if optTruthy output_dir then
    _get_custom_output_path ogg_path root_path (output_dir.getD "")
  else if !restructure then ⟨(splitextFull ogg_path.data).1 ++ ".mp3".data⟩
  else _get_restructured_path ogg_path root_path

/-! ## src/core/finder.py -/

/-- Normalised extension `f".{extension.lower().lstrip('.')}"` used by
`FileFinder.find_files`. -/
def normalizedExt (extension : String) : String :=
  ⟨'.' :: ((extension.data.map Char.toLower).dropWhile (fun c => c = '.'))⟩

/-- The per-file test of `FileFinder.find_files`:
`filename.lower().endswith(normalized_ext)` on the walk-produced basename. -/
def hasExt (extension : String) (p : String) : Bool :=
  (normalizedExt extension).data.isSuffixOf ((basenameB p.data).map Char.toLower)

/-- `FileFinder.find_files`: all files under the root (the filesystem model
`fs`, in walk order) whose lowercased basename ends with the normalised
extension. -/
def find_files (fs : List String) (extension : String) : List String :=
  fs.filter (hasExt extension)

/-- `FileFinder.identify_files_for_conversion`. In-place (no restructure, no
output dir): collect the stems of all target-extension files once and keep the
source files whose stem is not among them. Otherwise: keep the source files
whose `get_mp3_path` output does not exist. Returns
(files_to_convert, total_source_count, skipped_count). -/
def identify_files_for_conversion (fs : List String) (root_path : String)
    (source_ext target_ext : String) (restructure : Bool)
    (output_dir : Option String) : List String × Nat × Nat :=
  let source_files := find_files fs source_ext
  let files_to_convert :=
    if !restructure && !optTruthy output_dir then
      let target_files := find_files fs target_ext
      let target_basenames := target_files.map stemOfBase
      source_files.filter (fun f => !(target_basenames.contains (stemOfBase f)))
    else
      source_files.filter
        (fun f => !(fs.contains (get_mp3_path f root_path restructure output_dir)))
  (files_to_convert, source_files.length, source_files.length - files_to_convert.length)

/-- Modelled from the spec: "A source file is unconverted iff its
computed/expected output path does not exist, using the same PathPolicy rule
as discovery" — for the in-place policy, the per-file `get_mp3_path`
existence test that the stem-set shortcut of the code is claimed to
coincide with. -/
def unconvertedByPolicy (fs : List String) (root_path : String) : List String :=
  (find_files fs "ogg").filter
    (fun f => !(fs.contains (get_mp3_path f root_path false none)))

/-! ## src/core/postcheck.py -/

/-- Observable outcome of `PostCheck.perform_post_check`: the unconverted
list it reports, which files the deletion loop called `os.remove` on, the
success count and total it prints, and which skip messages it prints. -/
structure PostCheckResult where
  oggCount : Nat
  mp3Count : Nat
  unconverted : List String
  attempted : List String
  deletedCount : Nat
  reportedTotal : Option Nat
  skippedDeletionMsg : Bool
  noFilesToDeleteMsg : Bool
deriving Repr, DecidableEq

/-- The deletion loop of `perform_post_check`: `os.remove` each file in turn,
incrementing the counter on success; an `OSError` is printed and the loop
continues with the next file. -/
def deleteLoop (removeOk : String → Bool) (files : List String) : Nat :=
  files.foldl (fun deleted f => if removeOk f then deleted + 1 else deleted) 0

/-- The unconverted-file scan of `perform_post_check` (lines 36–48 of
src/core/postcheck.py): an `.ogg` file is unconverted iff — restructured or
custom output directory — its `get_mp3_path` output does not exist, else iff
its stem is not among the stems of the discovered `.mp3` files. -/
def postcheck_unconverted (fs : List String) (root_path : String)
    (restructure : Bool) (output_dir : Option String) : List String :=
  let mp3_basenames := (find_files fs "mp3").map stemOfBase
  (find_files fs "ogg").filter (fun f =>
    if restructure || optTruthy output_dir then
      !(fs.contains (get_mp3_path f root_path restructure output_dir))
    else
      !(mp3_basenames.contains (stemOfBase f)))

/-- `PostCheck.perform_post_check` from src/core/postcheck.py. -/
def perform_post_check (fs : List String) (root_path : String)
    (delete_originals restructure : Bool) (output_dir : Option String)
    (removeOk : String → Bool) : PostCheckResult :=
  let ogg_files := find_files fs "ogg"
  let mp3_files := find_files fs "mp3"
  let unconverted := postcheck_unconverted fs root_path restructure output_dir
  if unconverted.isEmpty then
    if delete_originals && !ogg_files.isEmpty then
      { oggCount := ogg_files.length, mp3Count := mp3_files.length,
        unconverted := unconverted, attempted := ogg_files,
        deletedCount := deleteLoop removeOk ogg_files,
        reportedTotal := some ogg_files.length,
        skippedDeletionMsg := false, noFilesToDeleteMsg := false }
    else if delete_originals then
      { oggCount := ogg_files.length, mp3Count := mp3_files.length,
        unconverted := unconverted, attempted := [], deletedCount := 0,
        reportedTotal := none,
        skippedDeletionMsg := false, noFilesToDeleteMsg := true }
    else
      { oggCount := ogg_files.length, mp3Count := mp3_files.length,
        unconverted := unconverted, attempted := [], deletedCount := 0,
        reportedTotal := none,
        skippedDeletionMsg := false, noFilesToDeleteMsg := false }
  else
    { oggCount := ogg_files.length, mp3Count := mp3_files.length,
      unconverted := unconverted, attempted := [], deletedCount := 0,
      reportedTotal := none,
      skippedDeletionMsg := delete_originals, noFilesToDeleteMsg := false }

/-! ## src/ogg_to_mp3_converter.py — CLI surface and main loop -/

/-- `DEFAULT_BITRATE` from src/core/constants.py. -/
def DEFAULT_BITRATE : String := "320k"

/-- The argparse namespace of `main`, with the argparse defaults. -/
structure CliArgs where
  folder_path : String
  bitrate : String := "320k"
  threads : Option Nat := none
  post_check : Bool := false
  delete : Bool := false
  restructure : Bool := false
  dry_run : Bool := false
  output_dir : Option String := none
  verbose : Bool := false
deriving Repr, DecidableEq

/-- The errors `main` can raise before any scanning or conversion work. -/
inductive PreflightError where
  | usageDeleteWithoutPostCheck
  | outputDirUnusable
  | missingDependencies
deriving Repr, DecidableEq

/-- Every rejection `main` performs between argument parsing and the first
filesystem scan (src/ogg_to_mp3_converter.py lines 159–192): `--delete`
without `--post-check`; an output directory that cannot be created or is not
writable (environment oracle `outputDirOk`); missing `ffmpeg`/`ffprobe`
(oracle `dependenciesMissing`). `args.bitrate` is not consulted. -/
def mainPreflight (args : CliArgs) (outputDirOk : Bool)
    (dependenciesMissing : Bool) : Option PreflightError :=
  if args.delete && !args.post_check then some .usageDeleteWithoutPostCheck
  else if optTruthy args.output_dir && !outputDirOk then some .outputDirUnusable
  else if dependenciesMissing then some .missingDependencies
  else none

/-- `validate_bitrate` from src/ogg_to_mp3_converter.py:
`re.match(r'^\d+k$', bitrate)` — one or more digits followed by `k`
(`$` in `re` also accepts one trailing newline). The function is defined in
the source but never called. -/
def validate_bitrate (bitrate : String) : Bool :=
  let core := if bitrate.data.getLast? = some '\n' then bitrate.data.dropLast
              else bitrate.data
  match core.getLast? with
  | some 'k' => !core.dropLast.isEmpty && core.dropLast.all Char.isDigit
  | _ => false

/-- How one `future` completes in the `as_completed` loop of `main`:
`future.result()` either returns the converter's boolean or re-raises an
exception the task raised. -/
inductive TaskOutcome where
  | ok (result : Bool)
  | raised
deriving Repr, DecidableEq

/-- State the `as_completed` loop of `main` accumulates: the `results` list,
the progress-bar count (`pbar.update(1)` runs in the `finally`), and the
number of error lines written. -/
structure LoopState where
  results : List Bool
  pbarCount : Nat
  errorLines : Nat
deriving Repr, DecidableEq

/-- One iteration of the `as_completed` loop (lines 253–264): on a normal
result append it to `results`; on an exception only write an error line;
always tick the progress bar. -/
def loopStep (st : LoopState) (done : String × TaskOutcome) : LoopState :=
  match done.2 with
  | .ok b => { results := st.results ++ [b], pbarCount := st.pbarCount + 1,
               errorLines := st.errorLines }
  | .raised => { results := st.results, pbarCount := st.pbarCount + 1,
                 errorLines := st.errorLines + 1 }

/-- The whole `as_completed` loop over the futures in completion order. -/
def executorLoop (completed : List (String × TaskOutcome)) : LoopState :=
  completed.foldl loopStep { results := [], pbarCount := 0, errorLines := 0 }

/-- `converted_count = sum(results)` (line 266). -/
def converted_count (st : LoopState) : Nat := st.results.count true

/-- What `main` does per candidate: invoke the encoder, or skip it. -/
inductive EncoderAction where
  | invokeEncoder
  | skipEncoder
deriving Repr, DecidableEq

/-- The task `convert_file` that `main` submits for a candidate
(lines 225–241): it always constructs an `OggToMp3Converter` and calls its
real `convert()`; `args.dry_run` is never consulted anywhere in `main`. -/
def mainCandidateAction (dry_run : Bool) : EncoderAction :=
  EncoderAction.invokeEncoder

/-- The list of tasks `main` submits to the executor (line 251): one real
conversion per candidate, whatever `dry_run` is. -/
def mainSubmittedTasks (dry_run : Bool) (candidates : List String) :
    List (String × EncoderAction) :=
  candidates.map (fun c => (c, mainCandidateAction dry_run))

/-- `TestableConverter.convert` (lines 326–335): honours `dry_run` by
returning `True` without converting — but `main` never instantiates it. -/
def testableConverterConvert (dry_run : Bool) (realConvert : Bool) : Bool :=
  if dry_run then true else realConvert

/-! ## src/core/converter.py -/

/-- Python whitespace for `str.strip()`. -/
def isPyWs (c : Char) : Bool :=
  c == ' ' || c == '\t' || c == '\n' || c == '\x0d' || c == '\x0b' || c == '\x0c'

/-- Python `str.strip()`. -/
def pyStrip (s : String) : String :=
  ⟨((s.data.dropWhile isPyWs).reverse.dropWhile isPyWs).reverse⟩

/-- Digit tail of Python `int(str)` after the first digit: further digits,
with single underscores allowed between digits. -/
def pyDigitsGo (acc : Nat) : List Char → Option Nat
  | [] => some acc
  | c :: rest =>
    if c = '_' then
      match rest with
      | [] => none
      | d :: rest2 =>
        if d.isDigit then pyDigitsGo (acc * 10 + (d.toNat - 48)) rest2 else none
    else if c.isDigit then pyDigitsGo (acc * 10 + (c.toNat - 48)) rest
    else none

/-- Unsigned part of Python `int(str)`: one leading digit then `pyDigitsGo`. -/
def pyDigits : List Char → Option Nat
  | [] => none
  | d :: rest => if d.isDigit then pyDigitsGo (d.toNat - 48) rest else none

/-- Python `int(str)` on an already-stripped ASCII string: optional sign then
digits (`ValueError` is `none`). -/
def pyIntParse (l : List Char) : Option Int :=
  match l with
  | [] => none
  | c :: rest =>
    if c = '+' then (pyDigits rest).map Int.ofNat
    else if c = '-' then (pyDigits rest).map (fun n => -(Int.ofNat n))
    else (pyDigits (c :: rest)).map Int.ofNat

/-- Left-pad with `'0'` to the given width. -/
def padZeros (width : Nat) (s : List Char) : List Char :=
  List.replicate (width - s.length) '0' ++ s

/-- Python `f"{n:02d}"`: total width 2, zero-filled after the sign. -/
def formatInt02 (n : Int) : String :=
  if n < 0 then ⟨'-' :: padZeros 1 (Nat.repr n.natAbs).data⟩
  else ⟨padZeros 2 (Nat.repr n.natAbs).data⟩

/-- `OggToMp3Converter._format_track_number`: empty stays empty, a value with
`'/'` (the "N/Total" form) passes through, an `int`-parsable value is
formatted `{:02d}`, anything else passes through. -/
def _format_track_number (track_str : String) : String :=
  if track_str == "" then ""
  else if track_str.data.contains '/' then track_str
  else
    match pyIntParse track_str.data with
    | some n => formatInt02 n
    | none => track_str

/-- `OggToMp3Converter._format_date`: empty stays empty, a 4-character
all-digit value passes through, a value of length ≥ 4 is truncated to its
first 4 characters, shorter values pass through. -/
def _format_date (date_str : String) : String :=
  if date_str == "" then ""
  else if (date_str.data.length == 4) && date_str.data.all Char.isDigit then date_str
  else if 4 ≤ date_str.data.length then ⟨date_str.data.take 4⟩
  else date_str

/-- The static OGG→MP3 `tag_mapping` dict of `_normalize_tags`, as a lookup
on the lowercased key. -/
def tag_mapping (key : String) : Option String :=
  if key == "title" then some "title"
  else if key == "artist" then some "artist"
  else if key == "album" then some "album"
  else if key == "albumartist" then some "albumartist"
  else if key == "date" then some "date"
  else if key == "year" then some "date"
  else if key == "genre" then some "genre"
  else if key == "track" then some "track"
  else if key == "tracknumber" then some "track"
  else if key == "tracktotal" then some "tracktotal"
  else if key == "disc" then some "disc"
  else if key == "discnumber" then some "disc"
  else if key == "disctotal" then some "disctotal"
  else if key == "composer" then some "composer"
  else if key == "performer" then some "performer"
  else if key == "comment" then some "comment"
  else if key == "lyrics" then some "lyrics"
  else if key == "copyright" then some "copyright"
  else if key == "encoder" then some "encoder"
  else if key == "encoded_by" then some "encoded_by"
  else if key == "organization" then some "organization"
  else if key == "albumart" then some "albumart"
  else if key == "picture" then some "albumart"
  else none

/-- Python `str.lower()` on ASCII. -/
def lowerStr (s : String) : String := ⟨s.data.map Char.toLower⟩

/-- `dict[k] = v` on an insertion-ordered association list. -/
def dictSet (d : List (String × String)) (k v : String) : List (String × String) :=
  if d.any (fun kv => kv.1 == k) then
    d.map (fun kv => if kv.1 == k then (k, v) else kv)
  else d ++ [(k, v)]

/-- One iteration of the `for key, value in raw_tags.items()` loop of
`_normalize_tags`: map the lowercased key through `tag_mapping` (unknown keys
pass through lowercased), with special formatting for track/disc and date. -/
def normalizeOne (acc : List (String × String)) (kv : String × String) :
    List (String × String) :=
  let key_lower := lowerStr kv.1
  match tag_mapping key_lower with
  | some mp3_key =>
    if mp3_key == "track" || mp3_key == "disc" then
      dictSet acc mp3_key (_format_track_number (pyStrip kv.2))
    else if mp3_key == "date" then
      dictSet acc mp3_key (_format_date (pyStrip kv.2))
    else dictSet acc mp3_key (pyStrip kv.2)
  | none => dictSet acc key_lower (pyStrip kv.2)

/-- `OggToMp3Converter._normalize_tags`: empty input short-circuits; the
loop above, then empty values are removed. -/
def _normalize_tags (raw_tags : List (String × String)) : List (String × String) :=
  if raw_tags.isEmpty then []
  else (raw_tags.foldl normalizeOne []).filter (fun kv => !(kv.2 == ""))

/-- The Python exceptions the converter's collaborators can raise, at the
granularity `convert` distinguishes: `pydub.exceptions.CouldntDecodeError`
versus every other `Exception`. (`BaseException`s such as
`KeyboardInterrupt` are outside the model.) -/
inductive PyExc where
  | couldntDecode
  | otherError
deriving Repr, DecidableEq

/-- Oracle for one `convert()` run: per external call site, either the
normal result or the exception the call raised. `mediainfoTags` is the tag
dict assembled from `mediainfo_json` (its surrounding `except Exception`
catches any error); `ffprobeTags` is `_get_tags_with_ffprobe` (which
returns `{}` on the failures it catches itself — an `error` here is an
exception escaping it). -/
structure ConvertEnv where
  mkdirResult : Option PyExc := none
  mediainfoTags : Except PyExc (List (String × String)) := Except.ok []
  ffprobeTags : Except PyExc (List (String × String)) := Except.ok []
  decodeResult : Option PyExc := none
  exportTaggedResult : Option PyExc := none
  exportUntaggedResult : Option PyExc := none

/-- Decode-and-export stage of `convert`: `AudioSegment.from_ogg`, then the
export — with tags first when any survived normalization, retrying once
without tags if the tagged export raises; only a failure of the no-tag
attempt propagates. -/
def convertExportStage (env : ConvertEnv) (export_tags : List (String × String)) :
    Except PyExc Bool :=
  match env.decodeResult with
  | some e => Except.error e
  | none =>
    if !export_tags.isEmpty then
      match env.exportTaggedResult with
      | none => Except.ok true
      | some _ =>
        match env.exportUntaggedResult with
        | none => Except.ok true
        | some e => Except.error e
    else
      match env.exportUntaggedResult with
      | none => Except.ok true
      | some e => Except.error e

/-- Tag-reading stage of `convert`: the tags from `mediainfo_json` (whose
surrounding `except Exception` turns any failure into `{}`), falling back to
the direct ffprobe call when none were found. -/
def tagsFetchResult (env : ConvertEnv) : Except PyExc (List (String × String)) :=
  let raw_tags_1 : List (String × String) :=
    match env.mediainfoTags with
    | Except.ok t => t
    | Except.error _ => []
  if raw_tags_1.isEmpty then env.ffprobeTags else Except.ok raw_tags_1

/-- Body of `OggToMp3Converter.convert` after the `os.makedirs` call: read
tags, normalize them when any were found, then decode and export. -/
def convertAfterMkdir (env : ConvertEnv) : Except PyExc Bool :=
  match tagsFetchResult env with
  | Except.error e => Except.error e
  | Except.ok raw_tags =>
    convertExportStage env (if !raw_tags.isEmpty then _normalize_tags raw_tags else [])

/-- The `try` block of `convert`: `os.makedirs(dirname(mp3_path))` runs first
when restructuring or using a custom output directory, then the rest. -/
def convertBody (restructure output_dir_truthy : Bool) (env : ConvertEnv) :
    Except PyExc Bool :=
  if restructure || output_dir_truthy then
    match env.mkdirResult with
    | some e => Except.error e
    | none => convertAfterMkdir env
  else convertAfterMkdir env

/-- `OggToMp3Converter.convert`: the whole body is wrapped in
`try/except CouldntDecodeError/except Exception`; both handlers print and
return `False`. -/
def convert (restructure output_dir_truthy : Bool) (env : ConvertEnv) :
    Except PyExc Bool :=
  match convertBody restructure output_dir_truthy env with
  | Except.ok b => Except.ok b
  | Except.error PyExc.couldntDecode => Except.ok false
  | Except.error PyExc.otherError => Except.ok false

/-! ## Hypotheses and auxiliary notions used by the theorems -/

/-- Decimal value of a digit string (used to state what `{:02d}` formatting
of a bare-integer tag value produces). -/
def digitsToNat (l : List Char) : Nat :=
  l.foldl (fun acc c => acc * 10 + (c.toNat - 48)) 0

/-- A filesystem all of whose files lie directly in the root directory
(every path splits as `root ++ "/" ++ name` at its last slash) with every
filename containing at least one non-dot character. -/
def flatUnder (root : String) (fs : List String) : Prop :=
  ∀ p ∈ fs, (splitPath p.data).1 = root.data ++ ['/'] ∧
    (splitPath p.data).2.any nonDot = true

/-- Every file that `find_files fs "mp3"` picks up has a basename that is its
stem followed by exactly the four characters `.mp3` (rules out names such as
`x.MP3`, matched case-insensitively by discovery but missed by an exact
`os.path.exists` check, and dot-pathological names such as `..mp3`). -/
def targetsStemExact (fs : List String) : Prop :=
  ∀ p ∈ fs, hasExt "mp3" p = true →
    basenameB p.data = (splitextB (basenameB p.data)).1 ++ ".mp3".data

end Mp3cator

namespace Mp3cator

/-! ## Auxiliary lemmas -/

theorem splitLastAux_eq_some (sep : Char) :
    ∀ (l pre suf : List Char), splitLastAux sep l = some (pre, suf) →
      l = pre ++ sep :: suf := by
  intro l
  induction l with
  | nil => intro pre suf h; simp [splitLastAux] at h
  | cons c rest ih =>
    intro pre suf h
    unfold splitLastAux at h
    cases hr : splitLastAux sep rest with
    | some pq =>
      obtain ⟨l', r'⟩ := pq
      rw [hr] at h
      simp at h
      obtain ⟨h1, h2⟩ := h
      subst h1
      subst h2
      rw [ih l' r' hr]
      simp
    | none =>
      rw [hr] at h
      by_cases hc : c = sep
      · simp [hc] at h
        obtain ⟨h1, h2⟩ := h
        subst h1
        subst h2
        simp [hc]
      · simp [hc] at h

theorem splitLastAux_none (sep : Char) :
    ∀ (l : List Char), (∀ c ∈ l, c ≠ sep) → splitLastAux sep l = none := by
  intro l
  induction l with
  | nil => intro _; rfl
  | cons c rest ih =>
    intro h
    unfold splitLastAux
    rw [ih (fun d hd => h d (List.mem_cons_of_mem c hd))]
    simp [h c (List.mem_cons_self c rest)]

theorem splitLastAux_append (sep : Char) (suf : List Char)
    (hsuf : ∀ c ∈ suf, c ≠ sep) :
    ∀ pre : List Char, splitLastAux sep (pre ++ sep :: suf) = some (pre, suf) := by
  intro pre
  induction pre with
  | nil =>
    rw [List.nil_append]
    unfold splitLastAux
    rw [splitLastAux_none sep suf hsuf]
    simp
  | cons c rest ih =>
    show splitLastAux sep (c :: (rest ++ sep :: suf)) = some (c :: rest, suf)
    unfold splitLastAux
    rw [ih]

theorem splitPath_append (l : List Char) :
    (splitPath l).1 ++ (splitPath l).2 = l := by
  unfold splitPath
  cases h : splitLastAux '/' l with
  | none => rfl
  | some db =>
    obtain ⟨d, b⟩ := db
    have := splitLastAux_eq_some '/' l d b h
    simp [this]

theorem splitextB_stem_any (b : List Char) (h : b.any nonDot = true) :
    (splitextB b).1.any nonDot = true := by
  unfold splitextB
  cases hs : splitLastAux '.' b with
  | none => exact h
  | some se =>
    obtain ⟨stem, ext⟩ := se
    by_cases ha : stem.any nonDot = true
    · show ((if stem.any nonDot = true then (stem, '.' :: ext)
              else (b, [])).1.any nonDot) = true
      rw [if_pos ha]
      exact ha
    · show ((if stem.any nonDot = true then (stem, '.' :: ext)
              else (b, [])).1.any nonDot) = true
      rw [if_neg ha]
      exact h

theorem splitextB_append_mp3 (s : List Char) (h : s.any nonDot = true) :
    splitextB (s ++ ".mp3".data) = (s, ".mp3".data) := by
  have hmp3 : ∀ c ∈ ['m', 'p', '3'], c ≠ '.' := by decide
  have hsplit : splitLastAux '.' (s ++ '.' :: ['m', 'p', '3']) = some (s, ['m', 'p', '3']) :=
    splitLastAux_append '.' ['m', 'p', '3'] hmp3 s
  unfold splitextB
  rw [show ".mp3".data = '.' :: ['m', 'p', '3'] from rfl, hsplit]
  simp [h]

theorem get_mp3_path_inplace_data (f root : String)
    (hfr : (splitPath f.data).1 = root.data ++ ['/']) :
    (get_mp3_path f root false none).data =
      (root.data ++ ['/']) ++ ((splitextB (basenameB f.data)).1 ++ ".mp3".data) := by
  show (splitextFull f.data).1 ++ ".mp3".data = _
  unfold splitextFull
  rw [hfr]
  show (root.data ++ ['/']) ++ (splitextB (basenameB f.data)).1 ++ ".mp3".data = _
  rw [List.append_assoc]

theorem inplace_stem_mem_iff (root : String) (fs : List String)
    (H1 : flatUnder root fs) (H2 : targetsStemExact fs) (f : String)
    (hfr : (splitPath f.data).1 = root.data ++ ['/'])
    (hfa : (splitPath f.data).2.any nonDot = true) :
    stemOfBase f ∈ (find_files fs "mp3").map stemOfBase ↔
      get_mp3_path f root false none ∈ fs := by
  have hexp : (get_mp3_path f root false none).data =
      (root.data ++ ['/']) ++ ((splitextB (basenameB f.data)).1 ++ ".mp3".data) :=
    get_mp3_path_inplace_data f root hfr
  constructor
  · intro hmem
    obtain ⟨q, hq_t, hq_stem⟩ := List.mem_map.mp hmem
    have hq_fs : q ∈ fs := (List.mem_filter.mp hq_t).1
    have hq_ext : hasExt "mp3" q = true := (List.mem_filter.mp hq_t).2
    have h2q := H2 q hq_fs hq_ext
    have h1q := (H1 q hq_fs).1
    have hq_data : q.data = (root.data ++ ['/']) ++ basenameB q.data := by
      conv_lhs => rw [← splitPath_append q.data]
      rw [h1q]
      rfl
    have hstem : (splitextB (basenameB q.data)).1 = (splitextB (basenameB f.data)).1 :=
      congrArg String.data hq_stem
    have hq_eq : q = get_mp3_path f root false none := by
      apply String.ext
      rw [hq_data, h2q, hstem, hexp]
    rw [← hq_eq]
    exact hq_fs
  · intro hmem
    have h1e := H1 _ hmem
    have he_data : (get_mp3_path f root false none).data =
        (root.data ++ ['/']) ++ basenameB (get_mp3_path f root false none).data := by
      conv_lhs => rw [← splitPath_append (get_mp3_path f root false none).data]
      rw [h1e.1]
      rfl
    have hbe : basenameB (get_mp3_path f root false none).data =
        (splitextB (basenameB f.data)).1 ++ ".mp3".data :=
      (List.append_cancel_left (hexp.symm.trans he_data)).symm
    have hsf_any : (splitextB (basenameB f.data)).1.any nonDot = true :=
      splitextB_stem_any _ hfa
    have hext : hasExt "mp3" (get_mp3_path f root false none) = true := by
      unfold hasExt
      rw [hbe, List.map_append]
      rw [show List.map Char.toLower ".mp3".data = ".mp3".data from by decide]
      rw [show (normalizedExt "mp3").data = ".mp3".data from by decide]
      exact List.isSuffixOf_iff_suffix.mpr
        (List.suffix_append (List.map Char.toLower (splitextB (basenameB f.data)).1) _)
    have hstem_e : stemOfBase (get_mp3_path f root false none) = stemOfBase f := by
      apply String.ext
      show (splitextB (basenameB (get_mp3_path f root false none).data)).1 =
        (splitextB (basenameB f.data)).1
      rw [hbe, splitextB_append_mp3 _ hsf_any]
    exact List.mem_map.mpr
      ⟨get_mp3_path f root false none, List.mem_filter.mpr ⟨hmem, hext⟩, hstem_e⟩

theorem isEmpty_iff_eq_nil {α : Type} {l : List α} : l.isEmpty = true ↔ l = [] := by
  cases l <;> simp

theorem deleteLoop_eq_filter_length (removeOk : String → Bool) (files : List String) :
    deleteLoop removeOk files = (files.filter removeOk).length := by
  suffices h : ∀ acc : Nat,
      files.foldl (fun deleted f => if removeOk f then deleted + 1 else deleted) acc =
        acc + (files.filter removeOk).length by
    simpa [deleteLoop] using h 0
  induction files with
  | nil => intro acc; simp
  | cons a l ih =>
    intro acc
    by_cases h : removeOk a <;> simp [h, ih] <;> omega

/-! ## C1 -/

/-- C1 (amended): over a flat root — every file directly in the root
directory, every filename containing a non-dot character, and every
discovered `.mp3` file's basename being exactly its stem plus `.mp3` — the
in-place stem-set skip detection of `identify_files_for_conversion`, and the
identical stem-set unconverted-file detection of `perform_post_check`,
select exactly the lists that per-file `get_mp3_path`-existence testing
selects. (Without flatness the two differ: the stem set ignores
directories — see the counterexample.) -/
theorem c1_inplace_stem_skip_equiv_flat (fs : List String) (root : String)
    (delete_originals : Bool) (removeOk : String → Bool)
    (H1 : flatUnder root fs) (H2 : targetsStemExact fs) :
    (identify_files_for_conversion fs root "ogg" "mp3" false none).1 =
      unconvertedByPolicy fs root ∧
    (perform_post_check fs root delete_originals false none removeOk).unconverted =
      unconvertedByPolicy fs root := by
  have key : ∀ f ∈ find_files fs "ogg",
      (!(((find_files fs "mp3").map stemOfBase).contains (stemOfBase f))) =
      (!(fs.contains (get_mp3_path f root false none))) := by
    intro f hf
    have hf_fs : f ∈ fs := (List.mem_filter.mp hf).1
    have h1f := H1 f hf_fs
    have hiff := inplace_stem_mem_iff root fs H1 H2 f h1f.1 h1f.2
    have hco : (((find_files fs "mp3").map stemOfBase).contains (stemOfBase f)) =
        (fs.contains (get_mp3_path f root false none)) := by
      rw [Bool.eq_iff_iff]
      constructor
      · intro hc
        exact List.elem_iff.mpr (hiff.mp (List.elem_iff.mp hc))
      · intro hc
        exact List.elem_iff.mpr (hiff.mpr (List.elem_iff.mp hc))
    rw [hco]
  have hfirst : (identify_files_for_conversion fs root "ogg" "mp3" false none).1 =
      (find_files fs "ogg").filter
        (fun f => !(((find_files fs "mp3").map stemOfBase).contains (stemOfBase f))) := rfl
  have hsecond : unconvertedByPolicy fs root =
      (find_files fs "ogg").filter
        (fun f => !(fs.contains (get_mp3_path f root false none))) := rfl
  have hpost : (perform_post_check fs root delete_originals false none removeOk).unconverted =
      (find_files fs "ogg").filter
        (fun f => !(((find_files fs "mp3").map stemOfBase).contains (stemOfBase f))) := by
    have h0 : (perform_post_check fs root delete_originals false none removeOk).unconverted =
        postcheck_unconverted fs root false none := by
      simp only [perform_post_check]
      repeat' split
      all_goals rfl
    rw [h0]
    rfl
  constructor
  · rw [hfirst, hsecond]
    exact List.filter_congr key
  · rw [hpost, hsecond]
    exact List.filter_congr key

/-- C1 counterexample: with nested directories the claimed equivalence
fails. Sources `/r/a/x.ogg` and `/r/b/x.ogg` share the stem `x`; only
`/r/a/x.mp3` exists. The stem-set detection treats both sources as
converted, while the per-file `get_mp3_path` existence test (the PathPolicy
rule) still reports `/r/b/x.ogg` as a candidate/unconverted — in discovery
and in the post-check alike. -/
theorem c1_counterexample :
    (identify_files_for_conversion ["/r/a/x.ogg", "/r/b/x.ogg", "/r/a/x.mp3"]
        "/r" "ogg" "mp3" false none).1 ≠
      unconvertedByPolicy ["/r/a/x.ogg", "/r/b/x.ogg", "/r/a/x.mp3"] "/r" ∧
    (perform_post_check ["/r/a/x.ogg", "/r/b/x.ogg", "/r/a/x.mp3"] "/r"
        false false none (fun _ => true)).unconverted ≠
      unconvertedByPolicy ["/r/a/x.ogg", "/r/b/x.ogg", "/r/a/x.mp3"] "/r" := by
  exact ⟨by decide, by decide⟩

/-- C1 witness: the amended equivalence applied to a concrete flat root. -/
theorem c1_witness :
    (identify_files_for_conversion ["/r/b.ogg", "/r/a.ogg", "/r/a.mp3"]
        "/r" "ogg" "mp3" false none).1 =
      unconvertedByPolicy ["/r/b.ogg", "/r/a.ogg", "/r/a.mp3"] "/r" ∧
    (perform_post_check ["/r/b.ogg", "/r/a.ogg", "/r/a.mp3"] "/r"
        false false none (fun _ => true)).unconverted =
      unconvertedByPolicy ["/r/b.ogg", "/r/a.ogg", "/r/a.mp3"] "/r" :=
  c1_inplace_stem_skip_equiv_flat ["/r/b.ogg", "/r/a.ogg", "/r/a.mp3"] "/r"
    false (fun _ => true) (by unfold flatUnder; decide) (by unfold targetsStemExact; decide)

/-! ## C2 -/

/-- C2: `perform_post_check` deletes nothing when any source `.ogg` file
lacks its expected output, and then reports the skip exactly when deletion
was requested; it attempts deletion only when the unconverted list is empty,
`delete_originals` is true and at least one `.ogg` file exists, and in that
case every `.ogg` file is attempted individually (a failed `os.remove` does
not stop the remaining deletions), with the reported count equal to the
number of successful deletions out of the total attempted. -/
theorem c2_deletion_gating (fs : List String) (root : String)
    (delete_originals restructure : Bool) (output_dir : Option String)
    (removeOk : String → Bool) :
    ((perform_post_check fs root delete_originals restructure output_dir removeOk).unconverted ≠ [] →
      (perform_post_check fs root delete_originals restructure output_dir removeOk).attempted = [] ∧
      (perform_post_check fs root delete_originals restructure output_dir removeOk).deletedCount = 0 ∧
      (perform_post_check fs root delete_originals restructure output_dir removeOk).skippedDeletionMsg
        = delete_originals) ∧
    ((perform_post_check fs root delete_originals restructure output_dir removeOk).attempted ≠ [] →
      (perform_post_check fs root delete_originals restructure output_dir removeOk).unconverted = [] ∧
      delete_originals = true ∧ find_files fs "ogg" ≠ []) ∧
    ((perform_post_check fs root delete_originals restructure output_dir removeOk).unconverted = [] →
      delete_originals = true → find_files fs "ogg" ≠ [] →
      (perform_post_check fs root delete_originals restructure output_dir removeOk).attempted
        = find_files fs "ogg" ∧
      (perform_post_check fs root delete_originals restructure output_dir removeOk).deletedCount
        = ((find_files fs "ogg").filter removeOk).length ∧
      (perform_post_check fs root delete_originals restructure output_dir removeOk).reportedTotal
        = some (find_files fs "ogg").length) := by
  simp only [perform_post_check]
  by_cases hU : (postcheck_unconverted fs root restructure output_dir).isEmpty
  · rw [if_pos hU]
    have hUnil : postcheck_unconverted fs root restructure output_dir = [] :=
      isEmpty_iff_eq_nil.mp hU
    by_cases hD : (delete_originals && !(find_files fs "ogg").isEmpty) = true
    · rw [if_pos hD]
      rw [Bool.and_eq_true] at hD
      have hdel : delete_originals = true := hD.1
      have hne : find_files fs "ogg" ≠ [] := by
        intro hnil
        have h2 := hD.2
        rw [hnil] at h2
        simp at h2
      refine ⟨?_, ?_, ?_⟩
      · intro hcontra
        exact absurd hUnil hcontra
      · intro _
        exact ⟨hUnil, hdel, hne⟩
      · intro _ _ _
        exact ⟨rfl, deleteLoop_eq_filter_length removeOk _, rfl⟩
    · rw [if_neg hD]
      by_cases hd2 : delete_originals = true
      · rw [if_pos hd2]
        refine ⟨?_, ?_, ?_⟩
        · intro hcontra
          exact absurd hUnil hcontra
        · intro hcontra
          exact absurd rfl hcontra
        · intro _ _ hne
          exfalso
          apply hne
          apply isEmpty_iff_eq_nil.mp
          have : (!(find_files fs "ogg").isEmpty) = false := by
            cases he : (find_files fs "ogg").isEmpty
            · exfalso
              apply hD
              rw [hd2, he]
              rfl
            · simp [he]
          simpa using this
      · rw [if_neg hd2]
        refine ⟨?_, ?_, ?_⟩
        · intro hcontra
          exact absurd hUnil hcontra
        · intro hcontra
          exact absurd rfl hcontra
        · intro _ hdel _
          exact absurd hdel hd2
  · rw [if_neg hU]
    have hUne : postcheck_unconverted fs root restructure output_dir ≠ [] := by
      intro hnil
      exact hU (isEmpty_iff_eq_nil.mpr hnil)
    refine ⟨?_, ?_, ?_⟩
    · intro _
      exact ⟨rfl, rfl, rfl⟩
    · intro hcontra
      exact absurd rfl hcontra
    · intro hnil
      exact absurd hnil hUne

/-- C2 witness: the theorem applied at two concrete filesystems — one with
an unconverted `.ogg` (deletion skipped), one fully converted (deletion of
every `.ogg` attempted and counted). -/
theorem c2_witness :
    ((perform_post_check ["/r/x.ogg"] "/r" true false none (fun _ => false)).attempted = [] ∧
      (perform_post_check ["/r/x.ogg"] "/r" true false none
        (fun _ => false)).skippedDeletionMsg = true) ∧
    ((perform_post_check ["/r/x.ogg", "/r/x.mp3"] "/r" true false none
        (fun _ => true)).attempted = ["/r/x.ogg"] ∧
      (perform_post_check ["/r/x.ogg", "/r/x.mp3"] "/r" true false none
        (fun _ => true)).reportedTotal = some 1) := by
  constructor
  · have h := (c2_deletion_gating ["/r/x.ogg"] "/r" true false none (fun _ => false)).1
      (by decide)
    exact ⟨h.1, h.2.2⟩
  · have h := ((c2_deletion_gating ["/r/x.ogg", "/r/x.mp3"] "/r" true false none
      (fun _ => true)).2.2) (by decide) rfl (by decide)
    exact ⟨h.1, h.2.2⟩

/-! ## C3 -/

/-- C3 counterexample: under the Restructure policy the path computed for
`/root/Album/Track 01.ogg` with root `/root` is NOT `/root/RS/Album/Track01.mp3`:
`to_camel_case` lowercases the first word of every segment, so the directory
`Album` becomes `album` and the stem `Track 01` becomes `track01`. -/
theorem c3_counterexample :
    get_mp3_path "/root/Album/Track 01.ogg" "/root" true none ≠
      "/root/RS/Album/Track01.mp3" := by
  decide

/-- C3 (amended): under the Restructure policy, source
`/root/Album/Track 01.ogg` with root `/root` is mapped to
`/root/RS/album/track01.mp3` — directory segment and filename stem
transliterated by the word-normalization rule (which lowercases the first
word of each segment) and the extension swapped to `.mp3`. -/
theorem c3_restructure_example :
    get_mp3_path "/root/Album/Track 01.ogg" "/root" true none =
      "/root/RS/album/track01.mp3" := by
  decide

/-! ## C4 -/

/-- C4: the `--dry-run` flag is parsed but ignored — `main` submits a real
`OggToMp3Converter.convert` task for every candidate whatever `dry_run` is,
so conversions do run under `--dry-run`. (The `TestableConverter` subclass
would honour the flag, but `main` never instantiates it.) The claimed
behaviour — no encoder invocation under `--dry-run` — fails at the concrete
candidate below. -/
theorem c4_dry_run_ignored :
    mainSubmittedTasks true ["/r/a.ogg"] = [("/r/a.ogg", EncoderAction.invokeEncoder)] ∧
    (∀ candidates : List String,
      mainSubmittedTasks true candidates = mainSubmittedTasks false candidates) ∧
    testableConverterConvert true false = true := by
  exact ⟨rfl, fun _ => rfl, rfl⟩

/-! ## C5 -/

/-- C5: the default bitrate is `"320k"` and `validate_bitrate` does
implement `^\d+k$` — but `main` never calls it: with the invalid bitrate
`"abc"` every pre-work check passes (`mainPreflight` rejects nothing), so
the program proceeds to scanning and conversion instead of raising a usage
error. -/
theorem c5_bitrate_never_validated :
    ({ folder_path := "/music" } : CliArgs).bitrate = "320k" ∧
    DEFAULT_BITRATE = "320k" ∧
    validate_bitrate "320k" = true ∧
    validate_bitrate "abc" = false ∧
    validate_bitrate "" = false ∧
    mainPreflight { folder_path := "/music", bitrate := "abc" } true false = none := by
  refine ⟨rfl, rfl, by decide, by decide, by decide, rfl⟩

/-! ## C6 -/

/-- C6: a submitted candidate whose task raises contributes NO outcome to
the collected `results` — the `except` arm of the loop only writes an error
line and ticks the progress bar — so `results` has fewer entries than the
submitted candidates and the claimed one-outcome-per-candidate invariant
fails: here 2 candidates complete but `results = [true]`. -/
theorem c6_raised_outcome_dropped :
    (executorLoop [("/r/a.ogg", TaskOutcome.ok true),
      ("/r/b.ogg", TaskOutcome.raised)]).results = [true] ∧
    (executorLoop [("/r/a.ogg", TaskOutcome.ok true),
      ("/r/b.ogg", TaskOutcome.raised)]).results.length ≠
      [("/r/a.ogg", TaskOutcome.ok true), ("/r/b.ogg", TaskOutcome.raised)].length ∧
    (executorLoop [("/r/a.ogg", TaskOutcome.ok true),
      ("/r/b.ogg", TaskOutcome.raised)]).pbarCount = 2 ∧
    converted_count (executorLoop [("/r/a.ogg", TaskOutcome.ok true),
      ("/r/b.ogg", TaskOutcome.raised)]) = 1 := by
  decide

/-! ## C7 -/

/-- C7: a truthy (non-empty) `output_dir` takes priority over the
restructure flag — `get_mp3_path` always returns the custom-output-directory
path, which reproduces the relative path from the root under `output_dir`
with directory segments kept verbatim and only the extension swapped; in
particular `/root/Sub/song.ogg` with root `/root` and output dir `/out`
yields `/out/Sub/song.mp3` whether or not restructuring was requested. -/
theorem c7_custom_output_dir_priority :
    (∀ (ogg_path root_path output_dir : String) (restructure : Bool),
      output_dir ≠ "" →
      get_mp3_path ogg_path root_path restructure (some output_dir) =
        _get_custom_output_path ogg_path root_path output_dir) ∧
    get_mp3_path "/root/Sub/song.ogg" "/root" true (some "/out") = "/out/Sub/song.mp3" ∧
    get_mp3_path "/root/Sub/song.ogg" "/root" false (some "/out") = "/out/Sub/song.mp3" := by
  refine ⟨?_, by decide, by decide⟩
  intro ogg_path root_path output_dir restructure hd
  simp [get_mp3_path, optTruthy, hd]

/-- C7 witness: the priority statement applied at a concrete input. -/
theorem c7_witness :
    get_mp3_path "/a/x.ogg" "/a" true (some "/out") =
      _get_custom_output_path "/a/x.ogg" "/a" "/out" :=
  c7_custom_output_dir_priority.1 "/a/x.ogg" "/a" "/out" true (by decide)

/-! ## C8 -/

theorem subNonAlnumAux_all_space :
    ∀ (l : List Char), (∀ c ∈ l, c.isAlphanum = false) →
      ∀ (b : Bool), ∀ c ∈ subNonAlnumAux b l, c = ' ' := by
  intro l
  induction l with
  | nil => intro _ b c hc; simp [subNonAlnumAux] at hc
  | cons a rest ih =>
    intro h b c hc
    have ha : a.isAlphanum = false := h a (List.mem_cons_self a rest)
    have hrest : ∀ d ∈ rest, d.isAlphanum = false :=
      fun d hd => h d (List.mem_cons_of_mem a hd)
    cases b with
    | true =>
      simp [subNonAlnumAux, ha] at hc
      exact ih hrest true c hc
    | false =>
      simp [subNonAlnumAux, ha] at hc
      rcases hc with h1 | h1
      · exact h1
      · exact ih hrest true c h1

theorem stripSpaces_all_space (l : List Char) (h : ∀ c ∈ l, c = ' ') :
    stripSpaces l = [] := by
  have h1 : l.dropWhile (fun c => c == ' ') = [] :=
    List.dropWhile_eq_nil_iff.mpr (fun c hc => by simp [h c hc])
  simp [stripSpaces, h1]

/-- C8: `to_camel_case` maps `"01 - My Awesome Song"` to `"01MyAwesomeSong"`,
`"hello world"` to `"helloWorld"`, and every string with no ASCII
alphanumeric character to the empty string. -/
theorem c8_to_camel_case_spec :
    to_camel_case "01 - My Awesome Song" = "01MyAwesomeSong" ∧
    to_camel_case "hello world" = "helloWorld" ∧
    ∀ s : String, (∀ c ∈ s.data, c.isAlphanum = false) → to_camel_case s = "" := by
  refine ⟨by decide, by decide, ?_⟩
  intro s hs
  have h1 : ∀ c ∈ subNonAlnumAux false s.data, c = ' ' :=
    subNonAlnumAux_all_space s.data hs false
  have h2 : stripSpaces (subNonAlnumAux false s.data) = [] :=
    stripSpaces_all_space _ h1
  simp [to_camel_case, h2]

/-- C8 witness: the no-alphanumeric case applied at a concrete string. -/
theorem c8_witness : to_camel_case "!?" = "" :=
  c8_to_camel_case_spec.2.2 "!?" (by decide)

/-! ## C9 -/

theorem pyDigitsGo_all_digits :
    ∀ (l : List Char) (acc : Nat), l.all Char.isDigit = true →
      pyDigitsGo acc l =
        some (l.foldl (fun a c => a * 10 + (c.toNat - 48)) acc) := by
  intro l
  induction l with
  | nil => intro acc _; rfl
  | cons c rest ih =>
    intro acc hall
    have hc : c.isDigit = true :=
      List.all_eq_true.mp hall c (List.mem_cons_self c rest)
    have hrest : rest.all Char.isDigit = true :=
      List.all_eq_true.mpr
        (fun d hd => List.all_eq_true.mp hall d (List.mem_cons_of_mem c hd))
    have hc_ne : c ≠ '_' := by
      intro hEq
      rw [hEq] at hc
      exact absurd hc (by decide)
    unfold pyDigitsGo
    rw [if_neg hc_ne, if_pos hc]
    exact ih (acc * 10 + (c.toNat - 48)) hrest

theorem pyIntParse_digits (l : List Char) (hne : l ≠ [])
    (hall : l.all Char.isDigit = true) :
    pyIntParse l = some (Int.ofNat (digitsToNat l)) := by
  cases l with
  | nil => exact absurd rfl hne
  | cons c rest =>
    have hc : c.isDigit = true :=
      List.all_eq_true.mp hall c (List.mem_cons_self c rest)
    have hrest : rest.all Char.isDigit = true :=
      List.all_eq_true.mpr
        (fun d hd => List.all_eq_true.mp hall d (List.mem_cons_of_mem c hd))
    have hplus : c ≠ '+' := by
      intro hEq; rw [hEq] at hc; exact absurd hc (by decide)
    have hminus : c ≠ '-' := by
      intro hEq; rw [hEq] at hc; exact absurd hc (by decide)
    have h1 : pyIntParse (c :: rest) = (pyDigits (c :: rest)).map Int.ofNat := by
      simp only [pyIntParse]
      rw [if_neg hplus, if_neg hminus]
    have h2 : pyDigits (c :: rest) = pyDigitsGo (c.toNat - 48) rest := by
      simp only [pyDigits]
      rw [if_pos hc]
    rw [h1, h2, pyDigitsGo_all_digits rest (c.toNat - 48) hrest]
    simp [digitsToNat]

theorem formatInt02_ofNat (n : Nat) :
    formatInt02 (Int.ofNat n) = ⟨padZeros 2 (Nat.repr n).data⟩ := by
  have hnn : ¬ Int.ofNat n < 0 := by
    intro hlt
    cases Int.ofNat_nonneg n |>.not_lt hlt
  unfold formatInt02
  rw [if_neg hnn]
  rfl

/-- C9: during tag normalization, every track/disc value containing `'/'`
(the "N/Total" form) passes through `_format_track_number` unchanged, every
bare-integer (all-digit) value is zero-padded to at least two digits
(`{:02d}` of its decimal value), every 4-digit all-digit date value passes
through `_format_date` unchanged, and every date value of length at least 4
that is not a 4-digit year is truncated to its first 4 characters. -/
theorem c9_tag_value_formatting :
    (∀ s : String, '/' ∈ s.data → _format_track_number s = s) ∧
    (∀ s : String, s.data ≠ [] → s.data.all Char.isDigit = true →
      _format_track_number s = ⟨padZeros 2 (Nat.repr (digitsToNat s.data)).data⟩) ∧
    (∀ s : String, s.data.length = 4 → s.data.all Char.isDigit = true →
      _format_date s = s) ∧
    (∀ s : String, 4 ≤ s.data.length →
      ¬(s.data.length = 4 ∧ s.data.all Char.isDigit = true) →
      _format_date s = ⟨s.data.take 4⟩) := by
  refine ⟨?_, ?_, ?_, ?_⟩
  · intro s hsl
    have hne : s.data ≠ [] := List.ne_nil_of_mem hsl
    have hsne : (s == "") = false := by
      rw [beq_eq_false_iff_ne]
      intro h
      rw [h] at hne
      exact hne rfl
    have hcont : s.data.contains '/' = true := List.elem_iff.mpr hsl
    unfold _format_track_number
    rw [hsne, hcont]
    rfl
  · intro s hne hall
    have hsne : (s == "") = false := by
      rw [beq_eq_false_iff_ne]
      intro h
      rw [h] at hne
      exact hne rfl
    have hnc : s.data.contains '/' = false := by
      cases hcb : s.data.contains '/'
      · rfl
      · have hm : '/' ∈ s.data := List.elem_iff.mp hcb
        have := List.all_eq_true.mp hall _ hm
        exact absurd this (by decide)
    unfold _format_track_number
    rw [hsne, hnc, pyIntParse_digits s.data hne hall]
    show formatInt02 (Int.ofNat (digitsToNat s.data)) = _
    exact formatInt02_ofNat (digitsToNat s.data)
  · intro s h4 hall
    have hne : s.data ≠ [] := by
      intro h
      rw [h] at h4
      simp at h4
    have hsne : (s == "") = false := by
      rw [beq_eq_false_iff_ne]
      intro h
      rw [h] at hne
      exact hne rfl
    simp [_format_date, hsne, h4, hall]
  · intro s h4 hnot
    have hne : s.data ≠ [] := by
      intro h
      rw [h] at h4
      simp at h4
    have hsne : (s == "") = false := by
      rw [beq_eq_false_iff_ne]
      intro h
      rw [h] at hne
      exact hne rfl
    have hcond : ((s.data.length == 4) && s.data.all Char.isDigit) = false := by
      by_cases hl : s.data.length = 4
      · have hd : s.data.all Char.isDigit = false := by
          cases hda : s.data.all Char.isDigit
          · rfl
          · exact absurd ⟨hl, hda⟩ hnot
        simp [hd]
      · have hlen : (s.data.length == 4) = false := beq_eq_false_iff_ne.mpr hl
        rw [hlen, Bool.false_and]
    unfold _format_date
    rw [hsne, hcond]
    show (if 4 ≤ s.data.length then (⟨s.data.take 4⟩ : String) else s) = _
    rw [if_pos h4]

/-- C9 witness: the four formatting cases applied at concrete tag values. -/
theorem c9_witness :
    _format_track_number "7" = "07" ∧ _format_track_number "3/12" = "3/12" ∧
    _format_date "2023" = "2023" ∧ _format_date "2023-05-01" = "2023" := by
  refine ⟨?_, ?_, ?_, ?_⟩
  · exact (c9_tag_value_formatting.2.1 "7" (by decide) (by decide)).trans (by decide)
  · exact c9_tag_value_formatting.1 "3/12" (by decide)
  · exact c9_tag_value_formatting.2.2.1 "2023" (by decide) (by decide)
  · exact (c9_tag_value_formatting.2.2.2 "2023-05-01" (by decide) (by decide)).trans
      (by decide)

/-! ## C10 -/

theorem convertExportStage_ok (env : ConvertEnv) (t : List (String × String)) (b : Bool)
    (h : convertExportStage env t = Except.ok b) : b = true := by
  unfold convertExportStage at h
  repeat' split at h
  all_goals simp_all

theorem convertAfterMkdir_ok (env : ConvertEnv) (b : Bool)
    (h : convertAfterMkdir env = Except.ok b) : b = true := by
  unfold convertAfterMkdir at h
  cases hx : tagsFetchResult env with
  | error e =>
    rw [hx] at h
    simp at h
  | ok rt =>
    rw [hx] at h
    exact convertExportStage_ok env _ b h

theorem convertBody_ok (r o : Bool) (env : ConvertEnv) (b : Bool)
    (h : convertBody r o env = Except.ok b) : b = true := by
  unfold convertBody at h
  by_cases hro : (r || o) = true
  · rw [if_pos hro] at h
    cases hm : env.mkdirResult with
    | some e =>
      rw [hm] at h
      simp at h
    | none =>
      rw [hm] at h
      exact convertAfterMkdir_ok env b h
  · rw [if_neg hro] at h
    exact convertAfterMkdir_ok env b h

theorem convertExportStage_error_decode (env : ConvertEnv)
    (t : List (String × String)) (e : PyExc) (hd : env.decodeResult = some e) :
    ∃ e', convertExportStage env t = Except.error e' := by
  unfold convertExportStage
  rw [hd]
  exact ⟨e, rfl⟩

theorem convertExportStage_error_exports (env : ConvertEnv)
    (t : List (String × String)) (e1 e2 : PyExc)
    (h1 : env.exportTaggedResult = some e1) (h2 : env.exportUntaggedResult = some e2) :
    ∃ e', convertExportStage env t = Except.error e' := by
  unfold convertExportStage
  cases hd : env.decodeResult with
  | some e => exact ⟨e, rfl⟩
  | none =>
    by_cases ht : (!t.isEmpty) = true
    · rw [if_pos ht, h1, h2]
      exact ⟨e2, rfl⟩
    · rw [if_neg ht, h2]
      exact ⟨e2, rfl⟩

theorem convertAfterMkdir_error_of_stage (env : ConvertEnv)
    (hstage : ∀ t, ∃ e', convertExportStage env t = Except.error e') :
    ∃ e', convertAfterMkdir env = Except.error e' := by
  unfold convertAfterMkdir
  cases hx : tagsFetchResult env with
  | error e => exact ⟨e, rfl⟩
  | ok rt => exact hstage _

theorem convertBody_error_of_stage (r o : Bool) (env : ConvertEnv)
    (hstage : ∀ t, ∃ e', convertExportStage env t = Except.error e') :
    ∃ e', convertBody r o env = Except.error e' := by
  unfold convertBody
  by_cases hro : (r || o) = true
  · rw [if_pos hro]
    cases hm : env.mkdirResult with
    | some e => exact ⟨e, rfl⟩
    | none => exact convertAfterMkdir_error_of_stage env hstage
  · rw [if_neg hro]
    exact convertAfterMkdir_error_of_stage env hstage

theorem convertBody_error_of_decode (r o : Bool) (env : ConvertEnv) (e : PyExc)
    (hd : env.decodeResult = some e) :
    ∃ e', convertBody r o env = Except.error e' :=
  convertBody_error_of_stage r o env
    (fun t => convertExportStage_error_decode env t e hd)

theorem convertBody_error_of_exports (r o : Bool) (env : ConvertEnv) (e1 e2 : PyExc)
    (h1 : env.exportTaggedResult = some e1) (h2 : env.exportUntaggedResult = some e2) :
    ∃ e', convertBody r o env = Except.error e' :=
  convertBody_error_of_stage r o env
    (fun t => convertExportStage_error_exports env t e1 e2 h1 h2)

/-- C10 counterexample: a tag-read failure does not by itself make `convert`
return `False` — here `mediainfo_json` raises, the ffprobe fallback finds no
tags, decode and the untagged export succeed, and `convert` returns `True`. -/
theorem c10_counterexample :
    convert false false { mediainfoTags := Except.error PyExc.otherError } =
      Except.ok true := by
  rfl

/-- C10 (amended): `convert` is total at its public boundary — for every
environment it returns a boolean and no exception (of Python's `Exception`
hierarchy) escapes; a decode failure always yields `False`, and so does a
failure of both export attempts; tag-read failures are caught internally
(fallbacks run) and only errors reaching the boundary force `False`. -/
theorem c10_convert_total (restructure output_dir_truthy : Bool) (env : ConvertEnv) :
    (∃ b, convert restructure output_dir_truthy env = Except.ok b) ∧
    (∀ e, env.decodeResult = some e →
      convert restructure output_dir_truthy env = Except.ok false) ∧
    (∀ e1 e2, env.exportTaggedResult = some e1 → env.exportUntaggedResult = some e2 →
      convert restructure output_dir_truthy env = Except.ok false) := by
  refine ⟨?_, ?_, ?_⟩
  · cases hb : convertBody restructure output_dir_truthy env with
    | ok b => exact ⟨b, by simp [convert, hb]⟩
    | error e => cases e <;> exact ⟨false, by simp [convert, hb]⟩
  · intro e hd
    obtain ⟨e', he'⟩ := convertBody_error_of_decode restructure output_dir_truthy env e hd
    cases e' <;> simp [convert, he']
  · intro e1 e2 h1 h2
    obtain ⟨e', he'⟩ :=
      convertBody_error_of_exports restructure output_dir_truthy env e1 e2 h1 h2
    cases e' <;> simp [convert, he']

/-- C10 witness: the amended theorem applied at a concrete failing decode. -/
theorem c10_witness :
    convert false false { decodeResult := some PyExc.couldntDecode } = Except.ok false :=
  (c10_convert_total false false { decodeResult := some PyExc.couldntDecode }).2.1
    PyExc.couldntDecode rfl

end Mp3cator

